import Mathlib

set_option maxRecDepth 40000
set_option maxHeartbeats 1600000

/-!
Verification of the compiler pipeline (lexer, symbol table, code generator)
of the Xinu OS toy compiler, by a shallow embedding of the C sources
(src/lexer.c, src/symbol_table.c, src/codegen.c, src/compiler.c) into Lean.

Machine integers are modelled as `Int`/`Nat`; the `unsigned int` arithmetic
of the hash function is taken modulo 2^32 and the `(int32_t)` cast in the
code generator wraps modulo 2^32 into the signed range.  C strings are
`String`/`List Char` (characters are assumed ASCII, matching every name
and source text the compiler manipulates).  NULL pointers become `Option`.
-/

namespace XinuComp

/-! ## Symbol table: shallow embedding of src/symbol_table.c -/

/-- `symbol_kind_t` from src/symbol_table.h. -/
inductive SymKind where
  | var | parameter | function | process | semaphore
  | struct_ | union_ | enum_ | typedef_ | label
deriving DecidableEq, Repr

/-- `data_type_t` from src/parser.h. -/
inductive DataType where
  | void | char | short | int | long | float | double
  | pointer | array | struct_ | union_ | enum_ | function
  | process | semaphore | pid | unknown
deriving DecidableEq, Repr

/-- `type_info_t`, restricted to the two fields the embedded operations
read: `type_size` in src/parser.c only inspects `base_type` and the
populated `array_sizes`. -/
structure TypeInfo where
  baseType : DataType
  arraySizes : List Int
deriving DecidableEq, Repr

/-- `type_size` from src/parser.c (lines 337-360): a base size from the
switch on `base_type` (default 4), multiplied by every array dimension.
`type_size(NULL)` is 0. -/
def type_size : Option TypeInfo → Int
  | none => 0
  | some t =>
    let base : Int :=
      match t.baseType with
      | .void => 0
      | .char => 1
      | .short => 2
      | .int => 4
      | .long => 8
      | .float => 4
      | .double => 8
      | .pointer => 4
      | .pid => 4
      | .semaphore => 4
      | _ => 4
    t.arraySizes.foldl (fun acc s => acc * s) base

/-- `symbol_t` from src/symbol_table.h (the `declaration` back pointer and
the intrusive `next` pointer are represented by the bucket list below). -/
structure Symbol where
  name : String
  kind : SymKind
  type : Option TypeInfo
  scopeLevel : Int
  offset : Int
  isInitialized : Bool
  isUsed : Bool
deriving DecidableEq, Repr

/-- `HASH_TABLE_SIZE` from src/symbol_table.c. -/
def HASH_TABLE_SIZE : Nat := 128

/-- The djb2-style `hash` from src/symbol_table.c (lines 8-17): start 5381,
fold `hash*33 + c` in `unsigned int` (mod 2^32), then mod 128. -/
def hashName (s : String) : Nat :=
  (s.toList.foldl (fun h c => (h * 33 + c.toNat) % 4294967296) 5381) % HASH_TABLE_SIZE

/-- `scope_t`: the parent pointer is represented by the position of the
scope in the table's scope list. -/
structure Scope where
  level : Int
  buckets : List (List Symbol)
  symbolCount : Int
  nextOffset : Int
deriving Repr

/-- `scope_create` (src/symbol_table.c lines 19-36): empty buckets,
zero count and offset. -/
def scope_create (level : Int) : Scope :=
  ⟨level, List.replicate HASH_TABLE_SIZE [], 0, 0⟩

/-- `symbol_table_t`: `stack` holds the scopes strictly inside the global
scope, innermost first; `current_scope` is the head of `stack ++ [global]`
and the parent chain is the tail. -/
structure SymTab where
  stack : List Scope
  globalScope : Scope
  scopeLevel : Int
  hadError : Bool
  errorMsg : String
deriving Repr

/-- `symtab_create` (src/symbol_table.c lines 57-68). -/
def symtab_create : SymTab :=
  ⟨[], scope_create 0, 0, false, ""⟩

/-- The scope `table->current_scope` points at. -/
def SymTab.currentScope (st : SymTab) : Scope :=
  st.stack.headD st.globalScope

/-- Replace the scope `current_scope` points at. -/
def SymTab.setCurrentScope (st : SymTab) (sc : Scope) : SymTab :=
  match st.stack with
  | [] => { st with globalScope := sc }
  | _ :: rest => { st with stack := sc :: rest }

/-- `symtab_enter_scope` (src/symbol_table.c lines 83-87): increment the
level, push a fresh scope whose parent is the current scope. -/
def symtab_enter_scope (st : SymTab) : SymTab :=
  { st with
    scopeLevel := st.scopeLevel + 1
    stack := scope_create (st.scopeLevel + 1) :: st.stack }

/-- `symtab_exit_scope` (src/symbol_table.c lines 89-98): a no-op when the
current scope is the global scope, else restore the parent, decrement the
level and destroy the popped scope. -/
def symtab_exit_scope (st : SymTab) : SymTab :=
  match st.stack with
  | [] => st
  | _ :: rest => { st with stack := rest, scopeLevel := st.scopeLevel - 1 }

/-- `symtab_lookup_current_scope` (src/symbol_table.c lines 155-169):
search only the current scope's bucket for the name, first match in chain
order. -/
def symtab_lookup_current_scope (st : SymTab) (name : String) : Option Symbol :=
  ((st.currentScope.buckets.getD (hashName name) []).find? (fun s => s.name = name))

/-- `symtab_exists_current_scope` (src/symbol_table.c lines 171-173). -/
def symtab_exists_current_scope (st : SymTab) (name : String) : Bool :=
  (symtab_lookup_current_scope st name).isSome

/-- `symtab_lookup` (src/symbol_table.c lines 135-153): walk from the
current scope outward through the parents, returning the first match. -/
def symtab_lookup (st : SymTab) (name : String) : Option Symbol :=
  (st.stack ++ [st.globalScope]).findSome?
    (fun sc => (sc.buckets.getD (hashName name) []).find? (fun s => s.name = name))

/-- `symtab_insert` (src/symbol_table.c lines 100-133).  Fails (returns
no symbol, sets the error state, message text sans quote characters)
when the name already exists in the current scope; otherwise stores the
symbol (name truncated to `MAX_TOKEN_LEN - 1` characters by `strncpy`)
with offset `next_offset`, advances `next_offset` by `type_size` iff the
kind is variable or parameter, prepends it to its hash bucket and bumps
the count. -/
def symtab_insert (st : SymTab) (name : String) (kind : SymKind)
    (type : Option TypeInfo) : Option Symbol × SymTab :=
  if symtab_exists_current_scope st name then
    (none, { st with
             hadError := true
             errorMsg := "Symbol " ++ name ++ " already declared in current scope" })
  else
    let cur := st.currentScope
    let sym : Symbol :=
      { name := name.take 255
        kind := kind
        type := type
        scopeLevel := st.scopeLevel
        offset := cur.nextOffset
        isInitialized := false
        isUsed := false }
    let newOffset :=
      if kind = .var ∨ kind = .parameter then cur.nextOffset + type_size type
      else cur.nextOffset
    let h := hashName name
    let cur' : Scope :=
      { cur with
        buckets := cur.buckets.set h (sym :: cur.buckets.getD h [])
        symbolCount := cur.symbolCount + 1
        nextOffset := newOffset }
    (some sym, st.setCurrentScope cur')

/-! ## AST: shallow embedding of `ast_node_t` from src/parser.h -/

/-- `ast_node_type_t` from src/parser.h (NODE_*). -/
inductive NodeType where
  | prog | func | process | syscall | interrupt | param | block
  | varDecl | arrayDecl | structDecl | unionDecl | enumDecl | typedefDecl
  | field | exprStmt | ifStmt | whileStmt | doWhile | forStmt
  | switchStmt | caseStmt | defaultStmt | returnStmt | breakStmt
  | continueStmt | gotoStmt | labelStmt | empty
  | number | float | string | char | identifier
  | binaryOp | unaryOp | assign | compoundAssign | ternary | call
  | arrayAccess | memberAccess | ptrMember | cast | sizeofExpr
  | addressOf | dereference | preInc | preDec | postInc | postDec
  | comma | initList | create | resume | suspend | kill | sleep
  | yield | wait | signal | getpid | semaphore
  | typeNode | pointerType | arrayType | funcType
deriving DecidableEq, Repr

/-- `ast_node_t` from src/parser.h, restricted to the fields the code
generator and the driver read: `type`, `name`, `op`, `value.int_val`,
`data_type`, the three named child pointers and the child list.  A NULL
child pointer is `none`. -/
inductive AstNode where
  | mk (ntype : NodeType) (name : String) (op : String) (intVal : Int)
       (dataType : Option TypeInfo)
       (left : Option AstNode) (right : Option AstNode) (extra : Option AstNode)
       (children : List AstNode)
deriving Repr

def AstNode.ntype : AstNode → NodeType
  | .mk t _ _ _ _ _ _ _ _ => t

def AstNode.name : AstNode → String
  | .mk _ n _ _ _ _ _ _ _ => n

def AstNode.left : AstNode → Option AstNode
  | .mk _ _ _ _ _ l _ _ _ => l

def AstNode.children : AstNode → List AstNode
  | .mk _ _ _ _ _ _ _ _ cs => cs

/-- The name of the node behind a possibly-NULL pointer (the C code
dereferences `node->left->name` without a NULL check; real ASTs always
have the pointer set there). -/
def nameOfOpt : Option AstNode → String
  | none => ""
  | some n => n.name

/-! ## Code generator: shallow embedding of src/codegen.c -/

/-- `opcode_t` from src/codegen.h. -/
inductive Opcode where
  | push | pop | dup | swap
  | add | sub | mul | div | mod | neg
  | and | or | xor | not | shl | shr
  | land | lor | lnot
  | eq | ne | lt | le | gt | ge
  | load | store | loadl | storel | loadg | storeg | addr
  | jmp | jz | jnz | call | ret
  | create | resume | suspend | kill | sleep | yield | wait | signal | getpid
  | nop | halt
deriving DecidableEq, Repr

/-- `instruction_t` from src/codegen.h (the debug `comment` field is
always empty in the embedded operations and is omitted). -/
structure Instr where
  opcode : Opcode
  operand : Int
  label : String
deriving DecidableEq, Repr

/-- `codegen_t` together with its owned `code_buffer_t` (the capacity
field only drives reallocation and is dropped; the instruction sequence
is observably the same). -/
structure Gen where
  code : List Instr
  labelCounter : Int
  loopBreakLabel : Int
  loopContinueLabel : Int
  hadError : Bool
  errorMsg : String
deriving Repr

/-- The state of a generator fresh from `codegen_create`
(src/codegen.c lines 42-59). -/
def codegen_create : Gen :=
  ⟨[], 0, -1, -1, false, ""⟩

/-- The `(int32_t)` cast applied to `node->value.int_val` when pushing a
number: wrap into the signed 32-bit range. -/
def toInt32 (n : Int) : Int :=
  (n + 2147483648) % 4294967296 - 2147483648

/-- `codegen_emit` (src/codegen.c lines 70-92): append one instruction
(buffer growth is transparent). -/
def codegen_emit (g : Gen) (op : Opcode) (operand : Int) : Gen :=
  { g with code := g.code ++ [⟨op, operand, ""⟩] }

/-- `codegen_emit_label` (src/codegen.c lines 95-101): emit a `NOP` and
attach the label (truncated to 63 characters by `strncpy`) to it. -/
def codegen_emit_label (g : Gen) (label : String) : Gen :=
  { g with code := g.code ++ [⟨.nop, 0, label.take 63⟩] }

/-- `codegen_new_label` (src/codegen.c lines 104-106). -/
def codegen_new_label (g : Gen) : Int × Gen :=
  (g.labelCounter, { g with labelCounter := g.labelCounter + 1 })

/-- `codegen_patch_jump` (src/codegen.c lines 109-113): overwrite the
operand of the instruction at `instruction_index` when it is in range. -/
def codegen_patch_jump (g : Gen) (instructionIndex : Int) (target : Int) : Gen :=
  if 0 ≤ instructionIndex ∧ instructionIndex < (g.code.length : Int) then
    match g.code.get? instructionIndex.toNat with
    | some ins =>
      { g with code := g.code.set instructionIndex.toNat { ins with operand := target } }
    | none => g
  else g

/-- `codegen_error` (src/codegen.c lines 537-541). -/
def codegen_error (g : Gen) (message : String) : Gen :=
  { g with hadError := true, errorMsg := message.take 511 }

/-- The operator-to-opcode dispatch chain of the `NODE_BINARY_OP` case of
`codegen_expression` (src/codegen.c lines 143-179); an unknown spelling
falls through every `strcmp` and emits nothing. -/
def binary_op_emit (g : Gen) (op : String) : Gen :=
  if op = "+" then codegen_emit g .add 0
  else if op = "-" then codegen_emit g .sub 0
  else if op = "*" then codegen_emit g .mul 0
  else if op = "/" then codegen_emit g .div 0
  else if op = "%" then codegen_emit g .mod 0
  else if op = "&" then codegen_emit g .and 0
  else if op = "|" then codegen_emit g .or 0
  else if op = "^" then codegen_emit g .xor 0
  else if op = "<<" then codegen_emit g .shl 0
  else if op = ">>" then codegen_emit g .shr 0
  else if op = "==" then codegen_emit g .eq 0
  else if op = "!=" then codegen_emit g .ne 0
  else if op = "<" then codegen_emit g .lt 0
  else if op = "<=" then codegen_emit g .le 0
  else if op = ">" then codegen_emit g .gt 0
  else if op = ">=" then codegen_emit g .ge 0
  else if op = "&&" then codegen_emit g .land 0
  else if op = "||" then codegen_emit g .lor 0
  else g

mutual

/-- `codegen_expression` (src/codegen.c lines 116-235) on a non-NULL
node; `codegen_expression_opt` is the function as called on a possibly
NULL pointer. -/
def codegen_expression (st : SymTab) : AstNode → Gen → Gen
  | .mk t name op v _dt left right _extra children, g =>
    match t with
    | .number => codegen_emit g .push (toInt32 v)
    | .identifier =>
      match symtab_lookup st name with
      | none => codegen_error g "Undefined variable"
      | some sym =>
        if sym.scopeLevel = 0 then codegen_emit g .loadg sym.offset
        else codegen_emit g .loadl sym.offset
    | .binaryOp =>
      let g := codegen_expression_opt st left g
      let g := codegen_expression_opt st right g
      binary_op_emit g op
    | .unaryOp =>
      let g := codegen_expression_opt st left g
      if op = "-" then codegen_emit g .neg 0
      else if op = "!" then codegen_emit g .lnot 0
      else if op = "~" then codegen_emit g .not 0
      else g
    | .assign =>
      match symtab_lookup st (nameOfOpt left) with
      | none => codegen_error g "Undefined variable"
      | some sym =>
        let g := codegen_expression_opt st right g
        let g := codegen_emit g .dup 0
        if sym.scopeLevel = 0 then codegen_emit g .storeg sym.offset
        else codegen_emit g .storel sym.offset
    | .call =>
      let g := codegen_expression_list st children g
      match symtab_lookup st (nameOfOpt left) with
      | none => codegen_error g "Undefined function"
      | some sym => codegen_emit g .call sym.offset
    | .getpid => codegen_emit g .getpid 0
    | _ => g

/-- The NULL check at the top of `codegen_expression`. -/
def codegen_expression_opt (st : SymTab) : Option AstNode → Gen → Gen
  | none, g => g
  | some n, g => codegen_expression st n g

/-- The argument loops of the `NODE_CALL` / `NODE_CREATE` cases:
generate each child in order. -/
def codegen_expression_list (st : SymTab) : List AstNode → Gen → Gen
  | [], g => g
  | n :: rest, g => codegen_expression_list st rest (codegen_expression st n g)

end

mutual

/-- `codegen_statement` (src/codegen.c lines 238-414) on a non-NULL
node. -/
def codegen_statement (st : SymTab) : AstNode → Gen → Gen
  | .mk t _name _op _v _dt left right extra children, g =>
    match t with
    | .exprStmt =>
      let g := codegen_expression_opt st left g
      codegen_emit g .pop 0
    | .returnStmt =>
      let g :=
        match left with
        | some e => codegen_expression st e g
        | none => codegen_emit g .push 0
      codegen_emit g .ret 0
    | .ifStmt =>
      let (_elseLabel, g) := codegen_new_label g
      let (_endLabel, g) := codegen_new_label g
      let g := codegen_expression_opt st left g
      let jzIndex : Int := g.code.length
      let g := codegen_emit g .jz 0
      let g := codegen_statement_opt st right g
      match extra with
      | some e =>
        let jmpIndex : Int := g.code.length
        let g := codegen_emit g .jmp 0
        let g := codegen_patch_jump g jzIndex (g.code.length : Int)
        let g := codegen_statement st e g
        codegen_patch_jump g jmpIndex (g.code.length : Int)
      | none => codegen_patch_jump g jzIndex (g.code.length : Int)
    | .whileStmt =>
      let loopStart : Int := g.code.length
      let oldBreak := g.loopBreakLabel
      let oldContinue := g.loopContinueLabel
      let g := { g with loopContinueLabel := loopStart }
      let g := codegen_expression_opt st left g
      let jzIndex : Int := g.code.length
      let g := codegen_emit g .jz 0
      let g := codegen_statement_opt st right g
      let g := codegen_emit g .jmp loopStart
      let g := codegen_patch_jump g jzIndex (g.code.length : Int)
      { g with loopBreakLabel := oldBreak, loopContinueLabel := oldContinue }
    | .forStmt =>
      let oldBreak := g.loopBreakLabel
      let oldContinue := g.loopContinueLabel
      let g :=
        match left with
        | some e => codegen_emit (codegen_expression st e g) .pop 0
        | none => g
      let loopStart : Int := g.code.length
      let g :=
        match right with
        | some e =>
          let g := codegen_expression st e g
          let jzIndex : Int := g.code.length
          let g := codegen_emit g .jz 0
          { g with loopBreakLabel := jzIndex }
        | none => g
      let g :=
        match children with
        | b :: _ => codegen_statement st b g
        | [] => g
      let continuePos : Int := g.code.length
      let g := { g with loopContinueLabel := continuePos }
      let g :=
        match extra with
        | some e => codegen_emit (codegen_expression st e g) .pop 0
        | none => g
      let g := codegen_emit g .jmp loopStart
      let g :=
        if right.isSome ∧ 0 ≤ g.loopBreakLabel then
          codegen_patch_jump g g.loopBreakLabel (g.code.length : Int)
        else g
      { g with loopBreakLabel := oldBreak, loopContinueLabel := oldContinue }
    | .breakStmt =>
      if 0 ≤ g.loopBreakLabel then codegen_emit g .jmp g.loopBreakLabel else g
    | .continueStmt =>
      if 0 ≤ g.loopContinueLabel then codegen_emit g .jmp g.loopContinueLabel else g
    | .block => codegen_statement_list st children g
    | .create =>
      let g := codegen_expression_list st children g
      codegen_emit g .create children.length
    | .resume => codegen_emit (codegen_expression_opt st left g) .resume 0
    | .suspend => codegen_emit (codegen_expression_opt st left g) .suspend 0
    | .kill => codegen_emit (codegen_expression_opt st left g) .kill 0
    | .sleep => codegen_emit (codegen_expression_opt st left g) .sleep 0
    | .yield => codegen_emit g .yield 0
    | .wait => codegen_emit (codegen_expression_opt st left g) .wait 0
    | .signal => codegen_emit (codegen_expression_opt st left g) .signal 0
    | _ => g

/-- The NULL check at the top of `codegen_statement`. -/
def codegen_statement_opt (st : SymTab) : Option AstNode → Gen → Gen
  | none, g => g
  | some n, g => codegen_statement st n g

/-- The child loop of the `NODE_BLOCK` case. -/
def codegen_statement_list (st : SymTab) : List AstNode → Gen → Gen
  | [], g => g
  | n :: rest, g => codegen_statement_list st rest (codegen_statement st n g)

end

/-- `codegen_function` (src/codegen.c lines 417-433): emit the
`func_<name>` label as a NOP, generate the body, then the implicit
`PUSH 0 ; RET`. -/
def codegen_function (st : SymTab) (node : AstNode) (g : Gen) : Gen :=
  let g := codegen_emit_label g ("func_" ++ node.name)
  let g := codegen_statement_opt st node.left g
  let g := codegen_emit g .push 0
  codegen_emit g .ret 0

/-- `codegen_program` (src/codegen.c lines 436-449): for each top-level
FUNCTION or PROCESS generate it as a function, then a single `HALT`;
a node that is not a PROGRAM generates nothing. -/
def codegen_program (st : SymTab) (node : AstNode) (g : Gen) : Gen :=
  if node.ntype = .prog then
    let g := node.children.foldl
      (fun g c =>
        if c.ntype = .func ∨ c.ntype = .process then codegen_function st c g else g) g
    codegen_emit g .halt 0
  else g

/-- `codegen_generate` (src/codegen.c lines 452-458) run on a generator
state `g0` (fresh from `codegen_create` in the driver): returns success
iff no error was recorded, together with the final generator. -/
def codegen_generate_from (g0 : Gen) (st : SymTab) (ast : AstNode) : Bool × Gen :=
  let g := codegen_program st ast g0
  (!g.hadError, g)

/-- The driver path `compiler_generate`: `codegen_create` then
`codegen_generate`. -/
def codegen_generate (st : SymTab) (ast : AstNode) : Bool × Gen :=
  codegen_generate_from codegen_create st ast

/-- The symbol-table build loop of `compiler_analyze`
(src/compiler.c lines 139-153): insert one global symbol per top-level
FUNCTION/PROCESS/VAR_DECL child of the Program. -/
def compiler_analyze (ast : AstNode) : SymTab :=
  if ast.ntype = .prog then
    ast.children.foldl
      (fun st c =>
        match c with
        | .mk t name _ _ dt _ _ _ _ =>
          if t = .func ∨ t = .process then
            (symtab_insert st name (if t = .process then .process else .function) dt).2
          else if t = .varDecl then
            (symtab_insert st name .var dt).2
          else st)
      symtab_create
  else symtab_create

/-! ## Lexer: shallow embedding of src/lexer.c

The C lexer works on a byte buffer; characters are assumed ASCII (every
`ctype` predicate below is the ASCII case).  Loops of the C code become
fueled recursions; every loop of src/lexer.c advances `pos` by at least
one per iteration while `pos < length`, so fuel `length - pos + 1`
(computed at loop entry) makes the fueled recursion exit through the
loop condition exactly as the C loop does, never through fuel
exhaustion. -/

/-- `token_type_t` from src/lexer.h. -/
inductive TokenType where
  | eof | error | number | float | string | char | identifier
  | plus | minus | multiply | divide | modulo | increment | decrement
  | bitAnd | bitOr | bitXor | bitNot | lshift | rshift
  | eq | ne | lt | gt | le | ge | and | or | not
  | assign | plusAssign | minusAssign | mulAssign | divAssign | modAssign
  | andAssign | orAssign | xorAssign | lshiftAssign | rshiftAssign
  | semicolon | colon | comma | dot | arrow
  | lparen | rparen | lbrace | rbrace | lbracket | rbracket | question
  | void | int | charType | floatType | double | long | short
  | unsigned | signed | const | volatile | static | externKw
  | struct_ | union_ | enum_ | typedef_ | sizeof_
  | if_ | else_ | while_ | do_ | for_ | switch_ | case_ | default_
  | break_ | continue_ | return_ | goto_
  | process | syscall | interrupt | semaphore | signal | wait
  | create | resume | suspend | kill | sleep | yield
  | getpid | getprio | chprio | true_ | false_ | nullLiteral
deriving DecidableEq, Repr

/-- `token_t` from src/lexer.h.  The `literal` union is modelled as two
fields: `litInt` (`int_val`, set by `make_token`, `read_identifier` and
`read_number`) and `litChar` (`char_val`, set by `read_char`); the
`float_val` overlay of FLOAT tokens (an `atof` of the captured text) is
not modelled separately — the captured text in `value` determines it. -/
structure Token where
  ttype : TokenType
  value : List Char
  litInt : Int
  litChar : Char
  line : Nat
  column : Nat
  filename : String
deriving DecidableEq, Repr

/-- The zero-initialized static `token_t` (the initial contents of the
process-wide peek and unget buffers). -/
def token0 : Token :=
  ⟨.eof, [], 0, Char.ofNat 0, 0, 0, ""⟩

/-- `lexer_t` from src/lexer.h; `length` is always `source.length`. -/
structure Lexer where
  source : List Char
  filename : String
  pos : Nat
  line : Nat
  column : Nat
  hasError : Bool
  errorMsg : String
deriving Repr

def Lexer.length (l : Lexer) : Nat := l.source.length

/-- `lexer_init_ex` (src/lexer.c lines 78-87). -/
def lexer_init_ex (source : List Char) (filename : String) : Lexer :=
  ⟨source, filename, 0, 1, 1, false, ""⟩

/-- `lexer_current` (src/lexer.c lines 89-94). -/
def lexer_current (l : Lexer) : Char :=
  l.source.getD l.pos (Char.ofNat 0)

/-- `lexer_peek` (src/lexer.c lines 96-101). -/
def lexer_peek (l : Lexer) : Char :=
  l.source.getD (l.pos + 1) (Char.ofNat 0)

/-- `lexer_advance` (src/lexer.c lines 110-120). -/
def lexer_advance (l : Lexer) : Lexer :=
  if l.pos < l.length then
    if lexer_current l = '\n' then
      { l with line := l.line + 1, column := 1, pos := l.pos + 1 }
    else
      { l with column := l.column + 1, pos := l.pos + 1 }
  else l

/-- ASCII `isdigit`. -/
def isDigitC (c : Char) : Bool := 48 ≤ c.toNat ∧ c.toNat ≤ 57

/-- ASCII `isalpha`. -/
def isAlphaC (c : Char) : Bool :=
  (65 ≤ c.toNat ∧ c.toNat ≤ 90) ∨ (97 ≤ c.toNat ∧ c.toNat ≤ 122)

/-- ASCII `isalnum`. -/
def isAlnumC (c : Char) : Bool := isAlphaC c || isDigitC c

/-- ASCII `isxdigit`. -/
def isXdigitC (c : Char) : Bool :=
  isDigitC c || (97 ≤ c.toNat ∧ c.toNat ≤ 102) || (65 ≤ c.toNat ∧ c.toNat ≤ 70)

/-- `hex_digit_value` (src/lexer.c lines 236-241). -/
def hex_digit_value (c : Char) : Int :=
  if 48 ≤ c.toNat ∧ c.toNat ≤ 57 then (c.toNat : Int) - 48
  else if 97 ≤ c.toNat ∧ c.toNat ≤ 102 then (c.toNat : Int) - 97 + 10
  else if 65 ≤ c.toNat ∧ c.toNat ≤ 70 then (c.toNat : Int) - 65 + 10
  else -1

/-- `lexer_error` (src/lexer.c lines 787-792): formatted message. -/
def lexer_error (l : Lexer) (msg : String) : Lexer :=
  { l with
    hasError := true
    errorMsg := l.filename ++ ":" ++ toString l.line ++ ":" ++ toString l.column
                ++ ": error: " ++ msg }

/-- Loop of `skip_line_comment` (src/lexer.c lines 133-137). -/
def skip_line_comment_go : Nat → Lexer → Lexer
  | 0, l => l
  | fuel + 1, l =>
    if l.pos < l.length && lexer_current l ≠ '\n' then
      skip_line_comment_go fuel (lexer_advance l)
    else l

def skip_line_comment (l : Lexer) : Lexer :=
  skip_line_comment_go (l.length - l.pos + 1) l

/-- Loop of `skip_block_comment` (src/lexer.c lines 139-153); ends by
consuming the closing delimiter or, when the buffer runs out first,
recording the unterminated-comment error. -/
def skip_block_comment_go : Nat → Lexer → Lexer
  | 0, l => l
  | fuel + 1, l =>
    if l.pos < l.length then
      if lexer_current l = '*' && lexer_peek l = '/' then
        lexer_advance (lexer_advance l)
      else
        skip_block_comment_go fuel (lexer_advance l)
    else lexer_error l "Unterminated block comment"

def skip_block_comment (l : Lexer) : Lexer :=
  let l := lexer_advance (lexer_advance l)
  skip_block_comment_go (l.length - l.pos + 1) l

/-- Loop of `skip_whitespace_and_comments` (src/lexer.c lines 155-169). -/
def skip_ws_comments_go : Nat → Lexer → Lexer
  | 0, l => l
  | fuel + 1, l =>
    if l.pos < l.length then
      let c := lexer_current l
      if c = ' ' || c = '\t' || c = '\r' || c = '\n' then
        skip_ws_comments_go fuel (lexer_advance l)
      else if c = '/' && lexer_peek l = '/' then
        skip_ws_comments_go fuel (skip_line_comment l)
      else if c = '/' && lexer_peek l = '*' then
        skip_ws_comments_go fuel (skip_block_comment l)
      else l
    else l

def skip_whitespace_and_comments (l : Lexer) : Lexer :=
  skip_ws_comments_go (l.length - l.pos + 1) l

/-- `make_token` (src/lexer.c lines 171-181): position is the lexer's
position at the time of the call. -/
def make_token (l : Lexer) (t : TokenType) (value : List Char) : Token :=
  ⟨t, value.take 255, 0, Char.ofNat 0, l.line, l.column, l.filename⟩

/-- `make_error_token` (src/lexer.c lines 184-195): also sets the
lexer's error state (raw message, no position prefix). -/
def make_error_token (l : Lexer) (message : List Char) : Token × Lexer :=
  (⟨.error, message.take 255, 0, Char.ofNat 0, l.line, l.column, l.filename⟩,
   { l with hasError := true, errorMsg := (String.mk message).take 255 })

/-- The keyword table (src/lexer.c lines 19-70). -/
def keywords : List (String × TokenType) :=
  [("void", .void), ("int", .int), ("char", .charType), ("float", .floatType),
   ("double", .double), ("long", .long), ("short", .short),
   ("unsigned", .unsigned), ("signed", .signed), ("const", .const),
   ("volatile", .volatile), ("static", .static), ("extern", .externKw),
   ("struct", .struct_), ("union", .union_), ("enum", .enum_),
   ("typedef", .typedef_), ("sizeof", .sizeof_), ("if", .if_),
   ("else", .else_), ("while", .while_), ("do", .do_), ("for", .for_),
   ("switch", .switch_), ("case", .case_), ("default", .default_),
   ("break", .break_), ("continue", .continue_), ("return", .return_),
   ("goto", .goto_), ("process", .process), ("syscall", .syscall),
   ("interrupt", .interrupt), ("semaphore", .semaphore),
   ("signal", .signal), ("wait", .wait), ("create", .create),
   ("resume", .resume), ("suspend", .suspend), ("kill", .kill),
   ("sleep", .sleep), ("yield", .yield), ("getpid", .getpid),
   ("getprio", .getprio), ("chprio", .chprio), ("true", .true_),
   ("false", .false_), ("null", .nullLiteral), ("NULL", .nullLiteral)]

/-- `lookup_keyword` (src/lexer.c lines 197-204). -/
def lookup_keyword (ident : List Char) : TokenType :=
  match keywords.find? (fun kv => kv.1.toList = ident) with
  | some kv => kv.2
  | none => .identifier

/-- Loop of `read_identifier` (src/lexer.c lines 217-227): consume
alphanumerics and underscores, capturing at most 255 characters. -/
def read_identifier_go : Nat → List Char → Lexer → List Char × Lexer
  | 0, v, l => (v, l)
  | fuel + 1, v, l =>
    if l.pos < l.length then
      let c := lexer_current l
      if isAlnumC c || c = '_' then
        read_identifier_go fuel (if v.length < 255 then v ++ [c] else v) (lexer_advance l)
      else (v, l)
    else (v, l)

/-- `read_identifier` (src/lexer.c lines 207-234): position recorded at
entry (the first character of the identifier). -/
def read_identifier (l : Lexer) : Token × Lexer :=
  let line := l.line
  let col := l.column
  let fn := l.filename
  let (v, l') := read_identifier_go (l.length - l.pos + 1) [] l
  (⟨lookup_keyword v, v, 0, Char.ofNat 0, line, col, fn⟩, l')

/-- A `strtoll`-style fold: the numeric value of the longest prefix of
digits valid in the given base, clamped to the `long long` maximum. -/
def strtollDigits (base : Int) (cs : List Char) : Int :=
  let dv : Char → Int := fun c =>
    if isDigitC c then (c.toNat : Int) - 48
    else if 97 ≤ c.toNat ∧ c.toNat ≤ 122 then (c.toNat : Int) - 97 + 10
    else if 65 ≤ c.toNat ∧ c.toNat ≤ 90 then (c.toNat : Int) - 65 + 10
    else 99
  let rec go : Int → List Char → Int
    | acc, [] => acc
    | acc, c :: rest => if dv c < base then go (acc * base + dv c) rest else acc
  min (go 0 cs) 9223372036854775807

/-- `strtoll(value, NULL, 16)`: an optional `0x`/`0X` prefix is skipped
when a hex digit follows it. -/
def strtoll16 (cs : List Char) : Int :=
  match cs with
  | '0' :: x :: rest =>
    if (x = 'x' || x = 'X') && (rest.headD (Char.ofNat 0) |> isXdigitC) then
      strtollDigits 16 rest
    else strtollDigits 16 cs
  | _ => strtollDigits 16 cs

/-- Main digit loop of `read_number` (src/lexer.c lines 274-309).
State: captured text, `is_float` flag.  The branch order is exactly the
C chain: hex digits, binary digits, decimal digits, a fraction dot
followed by a digit, an exponent with optional sign. -/
def read_number_go (isHex isBinary : Bool) :
    Nat → List Char → Bool → Lexer → List Char × Bool × Lexer
  | 0, v, f, l => (v, f, l)
  | fuel + 1, v, f, l =>
    if l.pos < l.length && v.length < 255 then
      let c := lexer_current l
      if isHex then
        if isXdigitC c then read_number_go isHex isBinary fuel (v ++ [c]) f (lexer_advance l)
        else (v, f, l)
      else if isBinary then
        if c = '0' || c = '1' then
          read_number_go isHex isBinary fuel (v ++ [c]) f (lexer_advance l)
        else (v, f, l)
      else if isDigitC c then
        read_number_go isHex isBinary fuel (v ++ [c]) f (lexer_advance l)
      else if c = '.' && !f && isDigitC (lexer_peek l) then
        read_number_go isHex isBinary fuel (v ++ [c]) true (lexer_advance l)
      else if (c = 'e' || c = 'E') && !isHex then
        let v := v ++ [c]
        let l := lexer_advance l
        let c2 := lexer_current l
        if c2 = '+' || c2 = '-' then
          read_number_go isHex isBinary fuel (v ++ [c2]) true (lexer_advance l)
        else
          read_number_go isHex isBinary fuel v true l
      else (v, f, l)
    else (v, f, l)

/-- Suffix loop of `read_number` (src/lexer.c lines 311-315): consume
and discard `u U l L f F`. -/
def read_number_suffix_go : Nat → Lexer → Lexer
  | 0, l => l
  | fuel + 1, l =>
    let c := lexer_current l
    if c = 'u' || c = 'U' || c = 'l' || c = 'L' || c = 'f' || c = 'F' then
      read_number_suffix_go fuel (lexer_advance l)
    else l

/-- `read_number` (src/lexer.c lines 244-333): position recorded at
entry; a leading `0` selects hex (`0x`), binary (`0b`) or octal (digit
follows); the literal value is a `strtoll` of the captured text in the
selected base (binary: text after the `0b` prefix). -/
def read_number (l : Lexer) : Token × Lexer :=
  let line := l.line
  let col := l.column
  let fn := l.filename
  let startZero := lexer_current l = '0'
  let (v0, isHex, isBinary, isOctal, l0) :=
    if startZero then
      let v := ['0']
      let l := lexer_advance l
      let c := lexer_current l
      if c = 'x' || c = 'X' then (v ++ [c], true, false, false, lexer_advance l)
      else if c = 'b' || c = 'B' then (v ++ [c], false, true, false, lexer_advance l)
      else if isDigitC c then (v, false, false, true, l)
      else (v, false, false, false, l)
    else ([], false, false, false, l)
  let (v, isFloat, l1) := read_number_go isHex isBinary (l0.length - l0.pos + 1) v0 false l0
  let l2 := read_number_suffix_go (l1.length - l1.pos + 1) l1
  let litInt : Int :=
    if isFloat then 0
    else if isHex then strtoll16 v
    else if isBinary then strtollDigits 2 (v.drop 2)
    else if isOctal then strtollDigits 8 v
    else strtollDigits 10 v
  (⟨if isFloat then .float else .number, v, litInt, Char.ofNat 0, line, col, fn⟩, l2)

/-- `read_escape_char` (src/lexer.c lines 335-362): consume the
backslash and the escape character, returning the denoted character;
`\xHH` folds up to two hex digits. -/
def read_escape_char (l : Lexer) : Char × Lexer :=
  let l := lexer_advance l
  let c := lexer_current l
  let l := lexer_advance l
  if c = 'n' then (Char.ofNat 10, l)
  else if c = 't' then (Char.ofNat 9, l)
  else if c = 'r' then (Char.ofNat 13, l)
  else if c = '0' then (Char.ofNat 0, l)
  else if c = Char.ofNat 92 then (Char.ofNat 92, l)
  else if c = Char.ofNat 39 then (Char.ofNat 39, l)
  else if c = Char.ofNat 34 then (Char.ofNat 34, l)
  else if c = 'a' then (Char.ofNat 7, l)
  else if c = 'b' then (Char.ofNat 8, l)
  else if c = 'f' then (Char.ofNat 12, l)
  else if c = 'v' then (Char.ofNat 11, l)
  else if c = 'x' then
    let c1 := lexer_current l
    if isXdigitC c1 then
      let value1 := hex_digit_value c1
      let l := lexer_advance l
      let c2 := lexer_current l
      if isXdigitC c2 then
        (Char.ofNat ((value1 * 16 + hex_digit_value c2).toNat % 256), lexer_advance l)
      else (Char.ofNat (value1.toNat % 256), l)
    else (Char.ofNat 0, l)
  else (c, l)

/-- Loop of `read_string` (src/lexer.c lines 374-388): collect up to 255
characters until the closing quote; a backslash starts an escape; a raw
newline aborts with an unterminated-string error token. -/
def read_string_go (line col : Nat) (fn : String) :
    Nat → List Char → Lexer → Token × Lexer
  | 0, v, l => (⟨.string, v, 0, Char.ofNat 0, line, col, fn⟩, l)
  | fuel + 1, v, l =>
    if l.pos < l.length && v.length < 255 then
      let c := lexer_current l
      if c = Char.ofNat 34 then
        (⟨.string, v, 0, Char.ofNat 0, line, col, fn⟩, lexer_advance l)
      else if c = Char.ofNat 92 then
        let (e, l') := read_escape_char l
        read_string_go line col fn fuel (v ++ [e]) l'
      else if c = '\n' then
        make_error_token l ("Unterminated string literal".toList)
      else
        read_string_go line col fn fuel (v ++ [c]) (lexer_advance l)
    else (⟨.string, v, 0, Char.ofNat 0, line, col, fn⟩, l)

/-- `read_string` (src/lexer.c lines 364-394): position recorded at the
opening quote. -/
def read_string (l : Lexer) : Token × Lexer :=
  let line := l.line
  let col := l.column
  let fn := l.filename
  let l := lexer_advance l
  read_string_go line col fn (l.length - l.pos + 1) [] l

/-- `read_char` (src/lexer.c lines 396-423): position recorded at the
opening quote; one character or escape; a missing closing quote yields
an unterminated-character error token. -/
def read_char (l : Lexer) : Token × Lexer :=
  let line := l.line
  let col := l.column
  let fn := l.filename
  let l := lexer_advance l
  let (cv, l) :=
    if lexer_current l = Char.ofNat 92 then read_escape_char l
    else (lexer_current l, lexer_advance l)
  if lexer_current l ≠ Char.ofNat 39 then
    make_error_token l ("Unterminated character literal".toList)
  else
    (⟨.char, [cv], 0, cv, line, col, fn⟩, lexer_advance l)

/-- Shared shape of the operator cases of `lexer_next_token_ex`: the
token is made from the lexer state reached after consuming the
operator's characters. -/
def op_token (l : Lexer) (t : TokenType) (v : List Char) : Token × Lexer :=
  (make_token l t v, l)

/-- The operator/punctuation dispatch of `lexer_next_token_ex`
(src/lexer.c lines 461-625), entered after the first character `c` has
been consumed. -/
def lexer_operator_token (c : Char) (l : Lexer) : Token × Lexer :=
  if c = '+' then
    if lexer_current l = '+' then op_token (lexer_advance l) .increment ['+', '+']
    else if lexer_current l = '=' then op_token (lexer_advance l) .plusAssign ['+', '=']
    else op_token l .plus ['+']
  else if c = '-' then
    if lexer_current l = '-' then op_token (lexer_advance l) .decrement ['-', '-']
    else if lexer_current l = '=' then op_token (lexer_advance l) .minusAssign ['-', '=']
    else if lexer_current l = '>' then op_token (lexer_advance l) .arrow ['-', '>']
    else op_token l .minus ['-']
  else if c = '*' then
    if lexer_current l = '=' then op_token (lexer_advance l) .mulAssign ['*', '=']
    else op_token l .multiply ['*']
  else if c = '/' then
    if lexer_current l = '=' then op_token (lexer_advance l) .divAssign ['/', '=']
    else op_token l .divide ['/']
  else if c = '%' then
    if lexer_current l = '=' then op_token (lexer_advance l) .modAssign ['%', '=']
    else op_token l .modulo ['%']
  else if c = '&' then
    if lexer_current l = '&' then op_token (lexer_advance l) .and ['&', '&']
    else if lexer_current l = '=' then op_token (lexer_advance l) .andAssign ['&', '=']
    else op_token l .bitAnd ['&']
  else if c = '|' then
    if lexer_current l = '|' then op_token (lexer_advance l) .or ['|', '|']
    else if lexer_current l = '=' then op_token (lexer_advance l) .orAssign ['|', '=']
    else op_token l .bitOr ['|']
  else if c = '^' then
    if lexer_current l = '=' then op_token (lexer_advance l) .xorAssign ['^', '=']
    else op_token l .bitXor ['^']
  else if c = '~' then op_token l .bitNot ['~']
  else if c = '!' then
    if lexer_current l = '=' then op_token (lexer_advance l) .ne ['!', '=']
    else op_token l .not ['!']
  else if c = '=' then
    if lexer_current l = '=' then op_token (lexer_advance l) .eq ['=', '=']
    else op_token l .assign ['=']
  else if c = '<' then
    if lexer_current l = '=' then op_token (lexer_advance l) .le ['<', '=']
    else if lexer_current l = '<' then
      let l := lexer_advance l
      if lexer_current l = '=' then op_token (lexer_advance l) .lshiftAssign ['<', '<', '=']
      else op_token l .lshift ['<', '<']
    else op_token l .lt ['<']
  else if c = '>' then
    if lexer_current l = '=' then op_token (lexer_advance l) .ge ['>', '=']
    else if lexer_current l = '>' then
      let l := lexer_advance l
      if lexer_current l = '=' then op_token (lexer_advance l) .rshiftAssign ['>', '>', '=']
      else op_token l .rshift ['>', '>']
    else op_token l .gt ['>']
  else if c = ';' then op_token l .semicolon [';']
  else if c = ':' then op_token l .colon [':']
  else if c = ',' then op_token l .comma [',']
  else if c = '.' then
    if isDigitC (lexer_current l) then
      read_number { l with pos := l.pos - 1, column := l.column - 1 }
    else op_token l .dot ['.']
  else if c = '(' then op_token l .lparen ['(']
  else if c = ')' then op_token l .rparen [')']
  else if c = '{' then op_token l .lbrace ['{']
  else if c = '}' then op_token l .rbrace ['}']
  else if c = '[' then op_token l .lbracket ['[']
  else if c = ']' then op_token l .rbracket [']']
  else if c = '?' then op_token l .question ['?']
  else
    make_error_token l ("Unexpected character: ".toList ++ [c])

/-- The body of `lexer_next_token_ex` (src/lexer.c lines 425-626) after
the unget-buffer check: skip blanks and comments, then dispatch on the
first character of the token. -/
def lexer_next_token_core (l : Lexer) : Token × Lexer :=
  let l := skip_whitespace_and_comments l
  if l.length ≤ l.pos then (make_token l .eof [], l)
  else
    let c := lexer_current l
    if isAlphaC c || c = '_' then read_identifier l
    else if isDigitC c then read_number l
    else if c = Char.ofNat 34 then read_string l
    else if c = Char.ofNat 39 then read_char l
    else lexer_operator_token c (lexer_advance l)

/-- The process-wide token buffers of src/lexer.c (lines 9-12):
`peek_buffer`/`has_peek` and `unget_buffer`/`has_unget`, zero-initialized
static storage. -/
structure LexGlobals where
  peekBuffer : Token
  hasPeek : Bool
  ungetBuffer : Token
  hasUnget : Bool
deriving DecidableEq, Repr

/-- The initial (zeroed) state of the static buffers; also the state
after `lexer_init` (src/lexer.c lines 72-76) clears both flags. -/
def lexer_globals_init : LexGlobals :=
  ⟨token0, false, token0, false⟩

/-- `lexer_next_token_ex` (src/lexer.c lines 425-433 for the buffer
check): returns the unget buffer when one is pending — the peek buffer
is never consulted — otherwise lexes the next token. -/
def lexer_next_token_ex (g : LexGlobals) (l : Lexer) : Token × LexGlobals × Lexer :=
  if g.hasUnget then (g.ungetBuffer, { g with hasUnget := false }, l)
  else
    let (t, l') := lexer_next_token_core l
    (t, g, l')

/-- `lexer_peek_token_ex` (src/lexer.c lines 632-638): fill the peek
buffer from `lexer_next_token_ex` when it is empty, then return it. -/
def lexer_peek_token_ex (g : LexGlobals) (l : Lexer) : Token × LexGlobals × Lexer :=
  if g.hasPeek then (g.peekBuffer, g, l)
  else
    let (t, g', l') := lexer_next_token_ex g l
    (t, { g' with peekBuffer := t, hasPeek := true }, l')

/-- `lexer_unget_token` (src/lexer.c lines 645-648). -/
def lexer_unget_token (g : LexGlobals) (t : Token) : LexGlobals :=
  { g with ungetBuffer := t, hasUnget := true }

/-- Repeatedly call `lexer_next_token_ex` until an EOF token, collecting
the stream (with `fuel` as an upper bound on its length). -/
def token_stream : Nat → LexGlobals → Lexer → List Token × LexGlobals
  | 0, g, _ => ([], g)
  | fuel + 1, g, l =>
    let (t, g', l') := lexer_next_token_ex g l
    if t.ttype = .eof then ([t], g')
    else
      let (ts, g'') := token_stream fuel g' l'
      (t :: ts, g'')

/-! ## Concrete programs from the specification scenarios

The AST values below are the trees the recursive-descent parser of
src/parser.c builds for the quoted sources (node construction per
`parse_function`, `parse_block`, `parse_if_statement`,
`parse_while_statement`, `parse_return_statement`,
`parse_primary_expression` and `parse_postfix_expression`). -/

def intTy : TypeInfo := ⟨.int, []⟩

def voidTy : TypeInfo := ⟨.void, []⟩

/-- A NUMBER literal node: `parse_primary_expression` stores the token
text in `name`, the integer value in `value.int_val` and an `int` type. -/
def numNode (s : String) (n : Int) : AstNode :=
  .mk .number s "" n (some intTy) none none none []

/-- A RETURN node with the expression in `left`. -/
def retNode (e : AstNode) : AstNode :=
  .mk .returnStmt "" "" 0 none (some e) none none []

/-- A BLOCK node with the statements as children. -/
def blockNode (stmts : List AstNode) : AstNode :=
  .mk .block "" "" 0 none none none none stmts

/-- A parameterless FUNCTION node: `parse_function` puts the body block
in `left` and the return type in `data_type`. -/
def funcNode (name : String) (body : AstNode) : AstNode :=
  .mk .func name "" 0 (some voidTy) (some body) none none []

/-- A PROGRAM node with the top-level declarations as children. -/
def progNode (decls : List AstNode) : AstNode :=
  .mk .prog "" "" 0 none none none none decls

/-- An IDENTIFIER expression node. -/
def identNode (s : String) : AstNode :=
  .mk .identifier s "" 0 none none none none []

/-- An EXPR_STMT node with the expression in `left`. -/
def exprStmtNode (e : AstNode) : AstNode :=
  .mk .exprStmt "" "" 0 none (some e) none none []

/-- The AST of `void f(){ if (1) return 2; else return 3; }`:
IF with condition in `left`, then-branch in `right`, else in `extra`. -/
def exIfProgram : AstNode :=
  progNode [funcNode "f" (blockNode
    [.mk .ifStmt "" "" 0 none (some (numNode "1" 1))
        (some (retNode (numNode "2" 2)))
        (some (retNode (numNode "3" 3))) []])]

/-- The global symbol table the driver builds for `exIfProgram`. -/
def exIfSymtab : SymTab := compiler_analyze exIfProgram

/-- The AST of `void f(){ while (0) { yield; } }`: WHILE with condition
in `left` and body in `right`; YIELD has no operands. -/
def exWhileProgram : AstNode :=
  progNode [funcNode "f" (blockNode
    [.mk .whileStmt "" "" 0 none (some (numNode "0" 0))
        (some (blockNode [.mk .yield "" "" 0 none none none none []])) none []])]

/-- The global symbol table the driver builds for `exWhileProgram`. -/
def exWhileSymtab : SymTab := compiler_analyze exWhileProgram

/-- The AST of `void a(){} void b(){ a(); }`: a CALL node has the callee
identifier in `left` and the arguments as children. -/
def exCallProgram : AstNode :=
  progNode
    [funcNode "a" (blockNode []),
     funcNode "b" (blockNode [exprStmtNode
       (.mk .call "" "" 0 none (some (identNode "a")) none none [])])]

/-- The global symbol table the driver builds for `exCallProgram`. -/
def exCallSymtab : SymTab := compiler_analyze exCallProgram

/-- The opcode/operand sequence of a generated program (labels and
comments dropped). -/
def codeOps (g : Gen) : List (Opcode × Int) :=
  g.code.map (fun i => (i.opcode, i.operand))

/-! ## The jump-target invariant (claim about every generated program) -/

/-- The three opcodes whose operand the invariant constrains. -/
def isJumpOp (op : Opcode) : Bool :=
  op = .jmp || op = .jz || op = .jnz

/-- Every `JMP`/`JZ`/`JNZ` operand is between 0 and the current
instruction count (inclusively: a just-patched forward branch may point
at the next instruction to be emitted). -/
def jumpsBounded (g : Gen) : Prop :=
  ∀ i ∈ g.code, isJumpOp i.opcode → 0 ≤ i.operand ∧ i.operand ≤ (g.code.length : Int)

/-- The break/continue patch slots never exceed the instruction count
(they are −1 or the index of a previously emitted instruction). -/
def labelsBounded (g : Gen) : Prop :=
  g.loopBreakLabel ≤ (g.code.length : Int) ∧
  g.loopContinueLabel ≤ (g.code.length : Int)

/-- The generator invariant maintained by every emission step. -/
def GoodGen (g : Gen) : Prop :=
  jumpsBounded g ∧ labelsBounded g

/-- What one code-generation step guarantees: the buffer only grows, the
enclosing loop's break/continue slots are restored exactly, and the
invariant is preserved. -/
def StepOK (g g' : Gen) : Prop :=
  g.code.length ≤ g'.code.length ∧
  g'.loopBreakLabel = g.loopBreakLabel ∧
  g'.loopContinueLabel = g.loopContinueLabel ∧
  (GoodGen g → GoodGen g')

/-- The weaker relation that holds across the label-mutating segments
inside a loop's lowering (before the enclosing labels are restored). -/
def GrowOK (g g' : Gen) : Prop :=
  g.code.length ≤ g'.code.length ∧ (GoodGen g → GoodGen g')

/-- The lexer state for the two-token source of the peek/next scenario. -/
def exPeekLexer : Lexer := lexer_init_ex "a b".toList "<stdin>"

/-- A table whose global scope already holds a symbol named x
(for exercising a failing re-insert). -/
def exRedeclTable : SymTab := (symtab_insert symtab_create "x" .var (some intTy)).2

/-! # Theorems -/

/-- Indexing a replicated bucket array always yields the empty bucket. -/
theorem getD_replicate_nil (n i : Nat) :
    (List.replicate n ([] : List Symbol)).getD i [] = [] := by
  induction n generalizing i with
  | zero => simp [List.getD]
  | succ n ih =>
    cases i with
    | zero => simp [List.replicate]
    | succ i => simp only [List.replicate, List.getD_cons_succ]; exact ih i

/-- Replacing the current scope never touches the error state, the
level, or any other scope. -/
theorem setCurrentScope_hadError (st : SymTab) (sc : Scope) :
    (st.setCurrentScope sc).hadError = st.hadError := by
  cases st with
  | mk stack g lvl err msg => cases stack <;> simp [SymTab.setCurrentScope]

/-- Looking a name up in a freshly pushed scope finds nothing. -/
theorem lookup_current_enter_scope (st : SymTab) (name : String) :
    symtab_lookup_current_scope (symtab_enter_scope st) name = none := by
  simp [symtab_lookup_current_scope, symtab_enter_scope, SymTab.currentScope,
    scope_create, getD_replicate_nil]

/-- Claim C6: insert fails with a redeclaration error exactly when the
name already lives in the current scope (the error flag is raised
exactly then), and inserting into a freshly entered inner scope always
succeeds, whatever outer scopes contain — so shadowing an outer-scope
name is allowed. -/
theorem insert_redeclaration_iff_current_scope
    (st : SymTab) (name : String) (kind : SymKind) (ty : Option TypeInfo) :
    ((symtab_insert st name kind ty).1 = none ↔
      (symtab_lookup_current_scope st name).isSome = true) ∧
    (symtab_insert st name kind ty).2.hadError =
      (st.hadError || (symtab_lookup_current_scope st name).isSome) ∧
    (symtab_insert (symtab_enter_scope st) name kind ty).1.isSome = true := by
  refine ⟨?_, ?_, ?_⟩
  · by_cases h : (symtab_lookup_current_scope st name).isSome <;>
      simp [symtab_insert, symtab_exists_current_scope, h]
  · by_cases h : (symtab_lookup_current_scope st name).isSome <;>
      simp [symtab_insert, symtab_exists_current_scope, h, setCurrentScope_hadError]
  · simp [symtab_insert, symtab_exists_current_scope, lookup_current_enter_scope]

/-- Claim C9: `exit_scope` undoes `enter_scope` (the pushed scope is a
fresh empty one at level one greater, and popping it restores the table
exactly), and `exit_scope` at the global scope is a no-op. -/
theorem enter_exit_scope_roundtrip (st : SymTab) :
    symtab_exit_scope (symtab_enter_scope st) = st ∧
    (symtab_enter_scope st).scopeLevel = st.scopeLevel + 1 ∧
    (symtab_enter_scope st).currentScope = scope_create (st.scopeLevel + 1) ∧
    (st.stack = [] → symtab_exit_scope st = st) := by
  refine ⟨?_, rfl, rfl, ?_⟩
  · cases st
    simp [symtab_enter_scope, symtab_exit_scope]
  · intro h
    cases st
    simp_all [symtab_exit_scope]

/-- Witness for C9: the empty table is at the global scope and exiting
there changes nothing. -/
theorem enter_exit_scope_roundtrip_witness :
    symtab_create.stack = [] ∧ symtab_exit_scope symtab_create = symtab_create :=
  ⟨rfl, (enter_exit_scope_roundtrip symtab_create).2.2.2 rfl⟩

/-- Claim C10: a failing insert (name already in the current scope)
returns no symbol, raises the error flag, and leaves every scope — hash
buckets, symbol counts, next offsets — and the level untouched. -/
theorem failed_insert_preserves_table
    (st : SymTab) (name : String) (kind : SymKind) (ty : Option TypeInfo)
    (h : (symtab_lookup_current_scope st name).isSome = true) :
    (symtab_insert st name kind ty).2.stack = st.stack ∧
    (symtab_insert st name kind ty).2.globalScope = st.globalScope ∧
    (symtab_insert st name kind ty).2.scopeLevel = st.scopeLevel ∧
    (symtab_insert st name kind ty).2.hadError = true ∧
    (symtab_insert st name kind ty).1 = none := by
  simp [symtab_insert, symtab_exists_current_scope, h]

/-- Witness for C10: re-inserting x into a table already holding x. -/
theorem failed_insert_preserves_table_witness :
    (symtab_lookup_current_scope exRedeclTable "x").isSome = true ∧
    (symtab_insert exRedeclTable "x" .var none).2.stack = exRedeclTable.stack :=
  ⟨by decide, (failed_insert_preserves_table exRedeclTable "x" .var none (by decide)).1⟩

/-! ### Jump-target invariant: emission-step lemmas -/

theorem stepOK_refl (g : Gen) : StepOK g g :=
  ⟨le_refl _, rfl, rfl, fun h => h⟩

theorem stepOK_trans {a b c : Gen} (h1 : StepOK a b) (h2 : StepOK b c) : StepOK a c :=
  ⟨le_trans h1.1 h2.1, h2.2.1.trans h1.2.1, h2.2.2.1.trans h1.2.2.1,
   fun hg => h2.2.2.2 (h1.2.2.2 hg)⟩

theorem growOK_refl (g : Gen) : GrowOK g g :=
  ⟨le_refl _, fun h => h⟩

theorem growOK_trans {a b c : Gen} (h1 : GrowOK a b) (h2 : GrowOK b c) : GrowOK a c :=
  ⟨le_trans h1.1 h2.1, fun hg => h2.2 (h1.2 hg)⟩

theorem growOK_of_stepOK {a b : Gen} (h : StepOK a b) : GrowOK a b :=
  ⟨h.1, h.2.2.2⟩

theorem length_emit (g : Gen) (op : Opcode) (v : Int) :
    (codegen_emit g op v).code.length = g.code.length + 1 := by
  simp [codegen_emit]

theorem length_emit_label (g : Gen) (s : String) :
    (codegen_emit_label g s).code.length = g.code.length + 1 := by
  simp [codegen_emit_label]

/-- `codegen_emit` preserves the invariant when the operand of a jump
opcode is (under the invariant) a bounded instruction index. -/
theorem stepOK_emit {g : Gen} {op : Opcode} {v : Int}
    (hop : GoodGen g → isJumpOp op = true → 0 ≤ v ∧ v ≤ (g.code.length : Int)) :
    StepOK g (codegen_emit g op v) := by
  refine ⟨by simp [codegen_emit], rfl, rfl, ?_⟩
  intro hg
  obtain ⟨hj, hb, hc⟩ := hg
  refine ⟨?_, ?_, ?_⟩
  · intro i hi hjump
    simp only [codegen_emit, List.mem_append, List.mem_singleton] at hi
    simp only [codegen_emit, List.length_append, List.length_singleton]
    rcases hi with hi | rfl
    · have h := hj i hi hjump
      constructor
      · exact h.1
      · have := h.2
        push_cast
        omega
    · have h := hop ⟨hj, hb, hc⟩ hjump
      constructor
      · exact h.1
      · have := h.2
        push_cast
        omega
  · simp only [codegen_emit, List.length_append, List.length_singleton]
    push_cast
    omega
  · simp only [codegen_emit, List.length_append, List.length_singleton]
    push_cast
    omega

theorem stepOK_emit_zero {g : Gen} {op : Opcode} : StepOK g (codegen_emit g op 0) :=
  stepOK_emit (fun _ _ => ⟨le_refl 0, by positivity⟩)

theorem stepOK_emit_nonjump {g : Gen} {op : Opcode} {v : Int}
    (h : isJumpOp op = false) : StepOK g (codegen_emit g op v) :=
  stepOK_emit (fun _ hj => by rw [h] at hj; cases hj)

theorem stepOK_emit_label {g : Gen} {s : String} : StepOK g (codegen_emit_label g s) := by
  refine ⟨by simp [codegen_emit_label], rfl, rfl, ?_⟩
  intro hg
  obtain ⟨hj, hb, hc⟩ := hg
  refine ⟨?_, ?_, ?_⟩
  · intro i hi hjump
    simp only [codegen_emit_label, List.mem_append, List.mem_singleton] at hi
    simp only [codegen_emit_label, List.length_append, List.length_singleton]
    rcases hi with hi | rfl
    · have h := hj i hi hjump
      refine ⟨h.1, ?_⟩
      have := h.2
      push_cast
      omega
    · simp [isJumpOp] at hjump
  · simp only [codegen_emit_label, List.length_append, List.length_singleton]
    push_cast
    omega
  · simp only [codegen_emit_label, List.length_append, List.length_singleton]
    push_cast
    omega

theorem stepOK_error {g : Gen} {m : String} : StepOK g (codegen_error g m) :=
  ⟨le_refl _, rfl, rfl, fun h => h⟩

theorem stepOK_labelCounter {g : Gen} {v : Int} :
    StepOK g { g with labelCounter := v } :=
  ⟨le_refl _, rfl, rfl, fun h => h⟩

theorem length_patch (g : Gen) (idx t : Int) :
    (codegen_patch_jump g idx t).code.length = g.code.length := by
  unfold codegen_patch_jump
  split
  · split
    · simp
    · rfl
  · rfl

/-- `codegen_patch_jump` preserves the invariant when the new target is
a bounded index; the patch slot itself is arbitrary. -/
theorem stepOK_patch {g : Gen} {idx t : Int}
    (h0 : 0 ≤ t) (hl : t ≤ (g.code.length : Int)) :
    StepOK g (codegen_patch_jump g idx t) := by
  unfold codegen_patch_jump
  split
  · split
    · next ins heq =>
      refine ⟨by simp, rfl, rfl, ?_⟩
      intro hg
      obtain ⟨hj, hb, hc⟩ := hg
      refine ⟨?_, by simpa using hb, by simpa using hc⟩
      intro i hi hjump
      simp only [List.length_set]
      rcases List.mem_or_eq_of_mem_set hi with hi | rfl
      · exact hj i hi hjump
      · exact ⟨h0, hl⟩
    · exact stepOK_refl g
  · exact stepOK_refl g

/-- Patching to the current instruction count. -/
theorem stepOK_patch_len {g : Gen} {idx : Int} :
    StepOK g (codegen_patch_jump g idx (g.code.length : Int)) :=
  stepOK_patch (by positivity) (le_refl _)

/-- Branching preserves a step guarantee that holds on both sides. -/
theorem stepOK_ite {g x y : Gen} {c : Prop} [Decidable c]
    (hx : StepOK g x) (hy : StepOK g y) : StepOK g (if c then x else y) := by
  by_cases h : c
  · rwa [if_pos h]
  · rwa [if_neg h]

theorem stepOK_binary_op_emit {g : Gen} {op : String} :
    StepOK g (binary_op_emit g op) := by
  unfold binary_op_emit
  repeat' refine stepOK_ite stepOK_emit_zero ?_
  exact stepOK_refl g

/-- Setting the continue slot to a bounded index only grows the state. -/
theorem growOK_set_continue {g : Gen} {v : Int} (h : v ≤ (g.code.length : Int)) :
    GrowOK g { g with loopContinueLabel := v } :=
  ⟨le_refl _, fun hg => ⟨hg.1, hg.2.1, h⟩⟩

/-- Setting the break slot to a bounded index only grows the state. -/
theorem growOK_set_break {g : Gen} {v : Int} (h : v ≤ (g.code.length : Int)) :
    GrowOK g { g with loopBreakLabel := v } :=
  ⟨le_refl _, fun hg => ⟨hg.1, h, hg.2.2⟩⟩

/-- `stepOK_emit` with the opcode and operand explicit (for mid-chain
steps whose operand unification cannot determine). -/
theorem stepOK_emit_v {g : Gen} (op : Opcode) (v : Int)
    (hop : GoodGen g → isJumpOp op = true → 0 ≤ v ∧ v ≤ (g.code.length : Int)) :
    StepOK g (codegen_emit g op v) :=
  stepOK_emit hop

/-- The for-loop pattern: right after emitting the conditional jump, the
break slot is set to that jump's index (the pre-emission count). -/
theorem growOK_set_break_after_jz {g : Gen} {op : Opcode} {w : Int} :
    GrowOK (codegen_emit g op w)
      { codegen_emit g op w with loopBreakLabel := (g.code.length : Int) } := by
  refine growOK_set_break ?_
  simp only [length_emit]
  push_cast
  omega

/-- The for-loop pattern when the body is empty: the break slot is set
to the jump's index and, immediately after, the continue slot to the
current count (the two record updates collapse into one). -/
theorem growOK_set_break_continue_after_jz {g : Gen} {op : Opcode} {w : Int} :
    GrowOK (codegen_emit g op w)
      { codegen_emit g op w with
        loopBreakLabel := (g.code.length : Int)
        loopContinueLabel := ((codegen_emit g op w).code.length : Int) } := by
  refine ⟨le_refl _, ?_⟩
  intro hg
  refine ⟨hg.1, ?_, le_refl _⟩
  simp only [length_emit]
  push_cast
  omega

theorem code_set_break (g : Gen) (v : Int) :
    ({ g with loopBreakLabel := v }).code = g.code := rfl

theorem code_set_continue (g : Gen) (v : Int) :
    ({ g with loopContinueLabel := v }).code = g.code := rfl

/-- Restoring the saved break/continue slots after a loop body turns a
`GrowOK` segment back into a full `StepOK` step. -/
theorem stepOK_restore (g : Gen) {gN : Gen} (h : GrowOK g gN) :
    StepOK g { gN with
               loopBreakLabel := g.loopBreakLabel
               loopContinueLabel := g.loopContinueLabel } := by
  refine ⟨h.1, rfl, rfl, ?_⟩
  intro hg
  have hN := h.2 hg
  refine ⟨hN.1, ?_, ?_⟩
  · exact le_trans hg.2.1 (by exact_mod_cast h.1)
  · exact le_trans hg.2.2 (by exact_mod_cast h.1)

mutual

/-- Expression generation never patches, never touches the loop slots,
and only appends non-branch instructions: one full step. -/
theorem codegen_expression_stepOK (st : SymTab) (n : AstNode) (g : Gen) :
    StepOK g (codegen_expression st n g) := by
  cases n with
  | mk t name op v dt left right extra children =>
    cases t
    all_goals simp only [codegen_expression]
    case number => exact stepOK_emit_nonjump (by decide)
    case identifier =>
      split
      · exact stepOK_error
      · split
        · exact stepOK_emit_nonjump (by decide)
        · exact stepOK_emit_nonjump (by decide)
    case binaryOp =>
      exact stepOK_trans (codegen_expression_opt_stepOK st left g)
        (stepOK_trans (codegen_expression_opt_stepOK st right _) stepOK_binary_op_emit)
    case unaryOp =>
      refine stepOK_trans (codegen_expression_opt_stepOK st left g) ?_
      refine stepOK_ite stepOK_emit_zero ?_
      refine stepOK_ite stepOK_emit_zero ?_
      exact stepOK_ite stepOK_emit_zero (stepOK_refl _)
    case assign =>
      split
      · exact stepOK_error
      · refine stepOK_trans (codegen_expression_opt_stepOK st right g) ?_
        refine stepOK_trans (@stepOK_emit_zero _ .dup) ?_
        split
        · exact stepOK_emit_nonjump (by decide)
        · exact stepOK_emit_nonjump (by decide)
    case call =>
      refine stepOK_trans (codegen_expression_list_stepOK st children g) ?_
      split
      · exact stepOK_error
      · exact stepOK_emit_nonjump (by decide)
    case getpid => exact stepOK_emit_zero
    all_goals exact stepOK_refl g

theorem codegen_expression_opt_stepOK (st : SymTab) (o : Option AstNode) (g : Gen) :
    StepOK g (codegen_expression_opt st o g) := by
  cases o with
  | none => exact stepOK_refl g
  | some n => exact codegen_expression_stepOK st n g

theorem codegen_expression_list_stepOK (st : SymTab) (ns : List AstNode) (g : Gen) :
    StepOK g (codegen_expression_list st ns g) := by
  cases ns with
  | nil => exact stepOK_refl g
  | cons n rest =>
    exact stepOK_trans (codegen_expression_stepOK st n g)
      (codegen_expression_list_stepOK st rest _)

end

mutual

/-- Statement generation is one full step: every branch instruction it
appends or patches lands between 0 and the instruction count, and the
enclosing loop slots come back restored. -/
theorem codegen_statement_stepOK (st : SymTab) (n : AstNode) (g : Gen) :
    StepOK g (codegen_statement st n g) := by
  cases n with
  | mk t name op v dt left right extra children =>
    cases t
    case exprStmt =>
      simp only [codegen_statement]
      exact stepOK_trans (codegen_expression_opt_stepOK st left g)
        (@stepOK_emit_zero _ .pop)
    case returnStmt =>
      cases left with
      | some e =>
        simp only [codegen_statement]
        exact stepOK_trans (codegen_expression_stepOK st e g) (@stepOK_emit_zero _ .ret)
      | none =>
        simp only [codegen_statement]
        exact stepOK_trans (@stepOK_emit_zero _ .push) (@stepOK_emit_zero _ .ret)
    case ifStmt =>
      cases extra with
      | some e =>
        simp only [codegen_statement, codegen_new_label]
        refine stepOK_trans ?_ stepOK_patch_len
        refine stepOK_trans ?_ (codegen_statement_stepOK st e _)
        refine stepOK_trans ?_ stepOK_patch_len
        refine stepOK_trans ?_ stepOK_emit_zero
        refine stepOK_trans ?_ (codegen_statement_opt_stepOK st right _)
        refine stepOK_trans ?_ stepOK_emit_zero
        refine stepOK_trans ?_ (codegen_expression_opt_stepOK st left _)
        exact stepOK_labelCounter
      | none =>
        simp only [codegen_statement, codegen_new_label]
        refine stepOK_trans ?_ stepOK_patch_len
        refine stepOK_trans ?_ (codegen_statement_opt_stepOK st right _)
        refine stepOK_trans ?_ stepOK_emit_zero
        refine stepOK_trans ?_ (codegen_expression_opt_stepOK st left _)
        exact stepOK_labelCounter
    case whileStmt =>
      simp only [codegen_statement]
      refine stepOK_restore g ?_
      refine growOK_trans ?_ (growOK_of_stepOK stepOK_patch_len)
      refine growOK_trans ?_ (growOK_of_stepOK (stepOK_emit ?hjmp))
      refine growOK_trans ?_ (growOK_of_stepOK (codegen_statement_opt_stepOK st right _))
      refine growOK_trans ?_ (growOK_of_stepOK stepOK_emit_zero)
      refine growOK_trans ?_ (growOK_of_stepOK (codegen_expression_opt_stepOK st left _))
      refine growOK_trans ?_ (growOK_set_continue (le_refl _))
      exact growOK_refl g
      case hjmp =>
        intro _ _
        refine ⟨by positivity, Nat.cast_le.mpr ?_⟩
        refine le_trans ?_ (codegen_statement_opt_stepOK st right _).1
        simp only [length_emit]
        refine le_trans ?_ (Nat.le_add_right _ _)
        refine le_trans ?_ (codegen_expression_opt_stepOK st left _).1
        exact le_refl _
    case forStmt =>
      rcases left with _ | eInit <;> rcases right with _ | eCond <;>
        rcases children with _ | ⟨b, rest⟩ <;> rcases extra with _ | eStep <;>
        simp only [codegen_statement] <;>
        refine stepOK_restore g ?_
      -- peel right to left: the conditional back-patch of the break slot
      all_goals
        refine growOK_trans ?_ (growOK_of_stepOK
          (stepOK_ite stepOK_patch_len (stepOK_refl _)))
      -- the closing JMP to the loop start (the count recorded after init)
      all_goals first
        | refine growOK_trans ?_ (growOK_of_stepOK (stepOK_emit_v .jmp
            ((codegen_emit (codegen_expression st eInit g) .pop 0).code.length : Int)
            ?_))
        | refine growOK_trans ?_ (growOK_of_stepOK (stepOK_emit_v .jmp
            ((g.code.length : Int)) ?_))
      -- the step segment, when present
      all_goals first
        | refine growOK_trans ?_ (growOK_trans
            (growOK_of_stepOK (codegen_expression_stepOK st eStep _))
            (growOK_of_stepOK stepOK_emit_zero))
        | skip
      -- the continue slot := current count; when the body is empty and a
      -- condition is present, this collapses with the break-slot update
      -- and the whole condition segment is peeled here
      all_goals first
        | refine growOK_trans ?_ (growOK_set_continue (le_refl _))
        | refine growOK_trans ?_ (growOK_trans (growOK_trans
            (growOK_of_stepOK (codegen_expression_stepOK st eCond _))
            (growOK_of_stepOK stepOK_emit_zero)) growOK_set_break_continue_after_jz)
        | skip
      -- the body, when present
      all_goals first
        | refine growOK_trans ?_ (growOK_of_stepOK (codegen_statement_stepOK st b _))
        | skip
      -- the condition segment, when present
      all_goals first
        | refine growOK_trans ?_ (growOK_trans (growOK_trans
            (growOK_of_stepOK (codegen_expression_stepOK st eCond _))
            (growOK_of_stepOK stepOK_emit_zero)) growOK_set_break_after_jz)
        | skip
      -- the init segment, when present
      all_goals first
        | refine growOK_trans ?_ (growOK_trans
            (growOK_of_stepOK (codegen_expression_stepOK st eInit _))
            (growOK_of_stepOK stepOK_emit_zero))
        | skip
      all_goals first
        | exact growOK_refl g
        | skip
      -- remaining goals: the loop-start bound of each closing JMP
      all_goals intro _ _
      all_goals refine ⟨by positivity, Nat.cast_le.mpr ?_⟩
      all_goals
        simp only [length_emit, length_patch, code_set_break, code_set_continue]
      all_goals
        repeat' first
          | exact le_refl _
          | refine le_trans ?_ (Nat.le_add_right _ _)
          | refine le_trans ?_ (codegen_statement_stepOK st b _).1
          | refine le_trans ?_ (codegen_expression_stepOK st eCond _).1
          | refine le_trans ?_ (codegen_expression_stepOK st eStep _).1
          | simp only [length_emit, length_patch, code_set_break, code_set_continue]
    case breakStmt =>
      simp only [codegen_statement]
      split
      · next h => exact stepOK_emit (fun hg _ => ⟨h, hg.2.1⟩)
      · exact stepOK_refl g
    case continueStmt =>
      simp only [codegen_statement]
      split
      · next h => exact stepOK_emit (fun hg _ => ⟨h, hg.2.2⟩)
      · exact stepOK_refl g
    case block =>
      simp only [codegen_statement]
      exact codegen_statement_list_stepOK st children g
    case create =>
      simp only [codegen_statement]
      exact stepOK_trans (codegen_expression_list_stepOK st children g)
        (stepOK_emit_nonjump (by decide))
    case resume =>
      simp only [codegen_statement]
      exact stepOK_trans (codegen_expression_opt_stepOK st left g)
        (@stepOK_emit_zero _ .resume)
    case suspend =>
      simp only [codegen_statement]
      exact stepOK_trans (codegen_expression_opt_stepOK st left g)
        (@stepOK_emit_zero _ .suspend)
    case kill =>
      simp only [codegen_statement]
      exact stepOK_trans (codegen_expression_opt_stepOK st left g)
        (@stepOK_emit_zero _ .kill)
    case sleep =>
      simp only [codegen_statement]
      exact stepOK_trans (codegen_expression_opt_stepOK st left g)
        (@stepOK_emit_zero _ .sleep)
    case yield =>
      simp only [codegen_statement]
      exact @stepOK_emit_zero _ .yield
    case wait =>
      simp only [codegen_statement]
      exact stepOK_trans (codegen_expression_opt_stepOK st left g)
        (@stepOK_emit_zero _ .wait)
    case signal =>
      simp only [codegen_statement]
      exact stepOK_trans (codegen_expression_opt_stepOK st left g)
        (@stepOK_emit_zero _ .signal)
    all_goals simp only [codegen_statement]
    all_goals exact stepOK_refl g

theorem codegen_statement_opt_stepOK (st : SymTab) (o : Option AstNode) (g : Gen) :
    StepOK g (codegen_statement_opt st o g) := by
  cases o with
  | none => exact stepOK_refl g
  | some n => exact codegen_statement_stepOK st n g

theorem codegen_statement_list_stepOK (st : SymTab) (ns : List AstNode) (g : Gen) :
    StepOK g (codegen_statement_list st ns g) := by
  cases ns with
  | nil => exact stepOK_refl g
  | cons n rest =>
    exact stepOK_trans (codegen_statement_stepOK st n g)
      (codegen_statement_list_stepOK st rest _)

end

/-- Function lowering (label, body, implicit return) is one full step. -/
theorem codegen_function_stepOK (st : SymTab) (node : AstNode) (g : Gen) :
    StepOK g (codegen_function st node g) := by
  unfold codegen_function
  refine stepOK_trans ?_ stepOK_emit_zero
  refine stepOK_trans ?_ stepOK_emit_zero
  refine stepOK_trans ?_ (codegen_statement_opt_stepOK st node.left _)
  exact stepOK_emit_label

/-- The top-level loop of `codegen_program` is one full step. -/
theorem codegen_program_children_stepOK (st : SymTab) (cs : List AstNode) (g : Gen) :
    StepOK g (cs.foldl
      (fun g c =>
        if c.ntype = .func ∨ c.ntype = .process then codegen_function st c g else g)
      g) := by
  induction cs generalizing g with
  | nil => exact stepOK_refl g
  | cons c rest ih =>
    simp only [List.foldl_cons]
    refine stepOK_trans ?_ (ih _)
    split
    · exact codegen_function_stepOK st c g
    · exact stepOK_refl g

/-- A generator fresh from `codegen_create` satisfies the invariant. -/
theorem goodGen_codegen_create : GoodGen codegen_create :=
  ⟨fun i hi _ => absurd hi (List.not_mem_nil i), by decide, by decide⟩

/-- Claim C5: in every generated program, the operand of every emitted
`JMP`, `JZ` or `JNZ` instruction is a valid instruction index: at least
0 and strictly below the final instruction count. -/
theorem jump_operands_in_range (st : SymTab) (ast : AstNode) (i : Instr)
    (hmem : i ∈ (codegen_generate st ast).2.code)
    (hjump : isJumpOp i.opcode = true) :
    0 ≤ i.operand ∧ i.operand < (((codegen_generate st ast).2.code.length : Int)) := by
  simp only [codegen_generate, codegen_generate_from, codegen_program] at hmem ⊢
  by_cases hp : ast.ntype = .prog
  · rw [if_pos hp] at hmem ⊢
    have hfold :=
      (codegen_program_children_stepOK st ast.children codegen_create).2.2.2
        goodGen_codegen_create
    simp only [codegen_emit, List.mem_append, List.mem_singleton] at hmem
    simp only [codegen_emit, List.length_append, List.length_singleton]
    rcases hmem with h | rfl
    · have hb := hfold.1 i h hjump
      refine ⟨hb.1, ?_⟩
      have := hb.2
      push_cast
      omega
    · simp [isJumpOp] at hjump
  · rw [if_neg hp] at hmem
    exact absurd hmem (List.not_mem_nil i)

/-- Witness for C5: the back-patched JZ of the while/yield program. -/
theorem jump_operands_in_range_witness :
    (⟨.jz, 5, ""⟩ : Instr) ∈ (codegen_generate exWhileSymtab exWhileProgram).2.code ∧
    isJumpOp Opcode.jz = true ∧
    (0 ≤ (5 : Int) ∧
      (5 : Int) < ((codegen_generate exWhileSymtab exWhileProgram).2.code.length : Int)) :=
  ⟨by decide, by decide,
   jump_operands_in_range exWhileSymtab exWhileProgram ⟨.jz, 5, ""⟩
     (by decide) (by decide)⟩

/-- When no unget is pending, `lexer_next_token_ex` leaves the global
buffers untouched and lexes from the lexer state alone. -/
theorem next_token_ex_of_no_unget (g : LexGlobals) (l : Lexer)
    (h : g.hasUnget = false) :
    lexer_next_token_ex g l =
      ((lexer_next_token_core l).1, g, (lexer_next_token_core l).2) := by
  simp only [lexer_next_token_ex, h]
  cases hcore : lexer_next_token_core l with
  | mk t l2 => simp

/-- Driving the lexer to EOF from a state with no pending unget leaves
the global buffers exactly as they were. -/
theorem token_stream_globals_fixed (fuel : Nat) (g : LexGlobals) (l : Lexer)
    (h : g.hasUnget = false) : (token_stream fuel g l).2 = g := by
  induction fuel generalizing g l with
  | zero => rfl
  | succ fuel ih =>
    simp only [token_stream, next_token_ex_of_no_unget g l h]
    split
    · rfl
    · simpa using ih g (lexer_next_token_core l).2 h

/-- Claim C8: lexing a source twice from freshly initialized lexers
(global token buffers starting clean, as `lexer_init` leaves them, and
threaded from the first run into the second) yields identical token
streams, and two code generators fresh from `codegen_create` produce
identical instruction sequences from the same AST and symbol table. -/
theorem lexing_and_codegen_deterministic
    (src : List Char) (fn : String) (fuel : Nat) (st : SymTab) (ast : AstNode)
    (g1 g2 : Gen) :
    (token_stream fuel lexer_globals_init (lexer_init_ex src fn)).1 =
      (token_stream fuel
        (token_stream fuel lexer_globals_init (lexer_init_ex src fn)).2
        (lexer_init_ex src fn)).1 ∧
    (g1 = codegen_create → g2 = codegen_create →
      (codegen_generate_from g1 st ast).2.code =
        (codegen_generate_from g2 st ast).2.code) := by
  constructor
  · rw [token_stream_globals_fixed fuel lexer_globals_init _ rfl]
  · rintro rfl rfl
    rfl

/-- Witness for C8: both halves at concrete inputs. -/
theorem lexing_and_codegen_deterministic_witness :
    (codegen_generate_from codegen_create symtab_create exWhileProgram).2.code =
      (codegen_generate_from codegen_create symtab_create exWhileProgram).2.code :=
  (lexing_and_codegen_deterministic "x".toList "f" 3 symtab_create exWhileProgram
    codegen_create codegen_create).2 rfl rfl

/-- Claim C1 fails on the code: for
`void f(){ if (1) return 2; else return 3; }` the generator does not
emit the claimed sequence with `JZ 5` — the if-condition JZ is patched
to 6, the index of the else branch, not 5. -/
theorem if_else_sequence_counterexample :
    codeOps (codegen_generate exIfSymtab exIfProgram).2 ≠
      [(.nop, 0), (.push, 1), (.jz, 5), (.push, 2), (.ret, 0), (.jmp, 8),
       (.push, 3), (.ret, 0), (.push, 0), (.ret, 0), (.halt, 0)] := by
  decide

/-- Claim C1 (amended): the emitted sequence is
NOP ; PUSH 1 ; JZ 6 ; PUSH 2 ; RET ; JMP 8 ; PUSH 3 ; RET ; PUSH 0 ;
RET ; HALT — the JZ is back-patched to 6, the first instruction of the
else branch (the instruction after the then-branch JMP). -/
theorem if_else_sequence :
    codeOps (codegen_generate exIfSymtab exIfProgram).2 =
      [(.nop, 0), (.push, 1), (.jz, 6), (.push, 2), (.ret, 0), (.jmp, 8),
       (.push, 3), (.ret, 0), (.push, 0), (.ret, 0), (.halt, 0)] := by
  decide

/-- Claim C7: for `void f(){ while (0) { yield; } }` the generator emits
NOP ; PUSH 0 ; JZ 5 ; YIELD ; JMP 1 ; PUSH 0 ; RET ; HALT — the
condition JZ is patched past the loop and the closing JMP targets the
condition. -/
theorem while_yield_sequence :
    codeOps (codegen_generate exWhileSymtab exWhileProgram).2 =
      [(.nop, 0), (.push, 0), (.jz, 5), (.yield, 0), (.jmp, 1),
       (.push, 0), (.ret, 0), (.halt, 0)] := by
  decide

/-- Claim C3 fails on the code: for `void a(){} void b(){ a(); }` the
two function symbols do not get offsets 0 and 1 — `b` also has offset 0,
because `symtab_insert` advances `next_offset` only for variables and
parameters. -/
theorem call_offsets_counterexample :
    (symtab_lookup exCallSymtab "b").map (fun s => s.offset) = some 0 ∧
    ((symtab_lookup exCallSymtab "a").map (fun s => s.offset),
      (symtab_lookup exCallSymtab "b").map (fun s => s.offset)) ≠
        (some 0, some 1) := by
  decide

/-- Claim C3 (amended): `a` and `b` become two distinct global symbols,
both with offset 0 (next_offset advances only for variables and
parameters), and the body of `b` emits `CALL 0`, the offset assigned to
`a`. -/
theorem call_offsets_and_call_zero :
    (symtab_lookup exCallSymtab "a").map (fun s => s.offset) = some 0 ∧
    (symtab_lookup exCallSymtab "b").map (fun s => s.offset) = some 0 ∧
    (symtab_lookup exCallSymtab "a").map (fun s => s.name) = some "a" ∧
    (symtab_lookup exCallSymtab "b").map (fun s => s.name) = some "b" ∧
    codeOps (codegen_generate exCallSymtab exCallProgram).2 =
      [(.nop, 0), (.push, 0), (.ret, 0), (.nop, 0), (.call, 0),
       (.pop, 0), (.push, 0), (.ret, 0), (.halt, 0)] := by
  decide

/-- Claim C2 is violated by the code: on the source `a b`, peek returns
the identifier `a` and a second peek returns the same token, but the
following `next` returns the identifier `b` — `lexer_next_token_ex`
checks only the unget buffer, never the peek buffer, so the stream is
advanced past the peeked token. -/
theorem peek_then_next_divergence :
    (lexer_peek_token_ex lexer_globals_init exPeekLexer).1.value = ['a'] ∧
    (lexer_peek_token_ex
        (lexer_peek_token_ex lexer_globals_init exPeekLexer).2.1
        (lexer_peek_token_ex lexer_globals_init exPeekLexer).2.2).1 =
      (lexer_peek_token_ex lexer_globals_init exPeekLexer).1 ∧
    (lexer_next_token_ex
        (lexer_peek_token_ex lexer_globals_init exPeekLexer).2.1
        (lexer_peek_token_ex lexer_globals_init exPeekLexer).2.2).1.value = ['b'] := by
  decide

/-- Claim C4 is violated by the code for operator and punctuation
tokens: lexing `+` from column 1 yields a PLUS token whose recorded
column is 2 — the operator path advances past the character before
calling `make_token` (the captured start coordinates are never used) —
while an identifier at column 1 is correctly recorded at column 1. -/
theorem operator_token_position_divergence :
    (lexer_next_token_core (lexer_init_ex ['+'] "f")).1.ttype = .plus ∧
    (lexer_next_token_core (lexer_init_ex ['+'] "f")).1.line = 1 ∧
    (lexer_next_token_core (lexer_init_ex ['+'] "f")).1.column = 2 ∧
    (lexer_next_token_core (lexer_init_ex ['a', 'b'] "f")).1.column = 1 := by
  decide

end XinuComp
